import Mathlib

/-!
Verification development for the XebecServer request-dispatch engine
(`src/mod.ts`, with `Req`/`ResponseHelper` from `src/types.ts`).

The TypeScript code is shallowly embedded:

* effects (exceptions thrown by middleware, handlers, body parsing,
  validation) are modelled by the monad `M`, a function from an event
  trace to an `Except String` result paired with the extended trace;
* the dispatcher emits an event exactly at each point where the source
  invokes an externally supplied callable (a global middleware, a
  route-local middleware, the matched handler, a `validate` predicate,
  or a body decoder), making "X was invoked" observable in the trace;
* the regular expression built by `addRoute` is represented by the
  token list `Tok` produced by the same escaping / `:name` / `*`
  rewriting pipeline, and matched by a greedy backtracking matcher
  with JavaScript regex semantics for this fragment;
* JavaScript objects used as string maps (`params`, `query`, `routes`,
  `wildcardRoutes`) are association lists updated with last-write-wins
  insertion-order semantics (`setKey`);
* the web APIs the code calls (`URLSearchParams`, `parseInt`,
  `Headers.get`, `String.includes`) are modelled by the corresponding
  Lean functions below (ASCII model of percent decoding).
-/

namespace Xebec

/-- Observable events: one is emitted exactly where `XebecServer` hands
control to user-supplied code. -/
inductive Ev where
  | globalMw (i : Nat)
  | localMw (i : Nat)
  | handlerCall
  | validateCall
  | parseJsonCall
  | parseFormCall
deriving DecidableEq

/-- Effect monad of the embedding: an event trace in, an `Except` result
and the extended trace out.  A thrown JavaScript error is `Except.error`
with the error message. -/
def M (α : Type) : Type := List Ev → Except String α × List Ev

def M.pure {α : Type} (a : α) : M α := fun t => (Except.ok a, t)

def M.bind {α β : Type} (x : M α) (f : α → M β) : M β := fun t =>
  match x t with
  | (Except.ok a, t') => f a t'
  | (Except.error e, t') => (Except.error e, t')

def M.throw {α : Type} (e : String) : M α := fun t => (Except.error e, t)

def M.emit (ev : Ev) : M Unit := fun t => (Except.ok (), t ++ [ev])

/-- Model of a `try { … } catch (error) { … }` block. -/
def M.tryCatch {α : Type} (x : M α) (h : String → M α) : M α := fun t =>
  match x t with
  | (Except.ok a, t') => (Except.ok a, t')
  | (Except.error e, t') => h e t'

def M.run {α : Type} (x : M α) : Except String α × List Ev := x []

/-- Body attached to the request context by `applyRouteOptions`. -/
inductive Body where
  | empty
  | json (s : String)
  | form (fields : List (String × String))
deriving DecidableEq

/-- The `Req` class of `src/types.ts`: the underlying request data plus
the mutable `params` / `query` fields (and the `body` field that
`applyRouteOptions` attaches).  `readJson` / `readForm` model the
`.json()` / `.formData()` body decoders of the wrapped `Request`, which
may suspend and may throw.  Header names are stored lowercased, matching
the case-insensitive `Headers` API. -/
structure Req where
  method : String
  pathname : String
  search : String
  headers : List (String × String)
  readJson : M String
  readForm : M (List (String × String))
  params : List (String × String)
  query : List (String × String)
  body : Body

/-- Response model: status, body text and headers. -/
structure Response where
  status : Nat
  body : String
  headers : List (String × String)
deriving DecidableEq

/-- A route handler: `(req: Req) => Promise<Response> | Response`. -/
def Handler : Type := Req → M Response

/-- A middleware: `(req, next) => Promise<Response> | Response`; the
continuation is an `M` computation, run only if the middleware uses it. -/
def Middleware : Type := Req → M Response → M Response

/-!
Pattern compilation (`addRoute`, src/mod.ts lines 143-152).

The source builds a regex in three passes over the path template:
escape the metacharacters `.+?^$\x7b\x7d()|[]\` (note: `*` and `/` are
NOT escaped), replace each `:\w+` with the capturing group `([^\/]+)`,
replace every remaining `*` with `.*`, and anchor with `^…$`.  After
those passes the regex consists only of literal (possibly escaped)
characters, param groups and `.*` runs, so it is represented here by a
token list produced by one scan of the original template.
-/

/-- One atom of the compiled route regex. -/
inductive Tok where
  | lit (c : Char)
  | param
  | star
deriving DecidableEq

/-- JavaScript `\w`: ASCII letters, digits and underscore. -/
def isWordChar (c : Char) : Bool := c.isAlpha || c.isDigit || c = '_'

/-- Tokens and name contributed by a finished `:`-run: a `:` followed
by no word characters is the literal `:`; otherwise it is the maximal
`:\w+` run, replaced by a capturing param group whose name is the word
run. -/
def flushColon (acc : List Char) : List Tok × List String :=
  if acc.isEmpty then ([Tok.lit ':'], []) else ([Tok.param], [String.mk acc])

/-- Scan of the path template: `:` followed by at least one word char
becomes a capturing param token (recording the name), `*` becomes a
match-anything token, every other character is a literal.  The second
argument is `some acc` while inside a `:`-run whose word characters so
far are `acc`, consuming one character per step. -/
def scanAux : List Char → Option (List Char) → List Tok × List String
  | [], none => ([], [])
  | [], some acc => flushColon acc
  | c :: cs, none =>
      if c = ':' then scanAux cs (some [])
      else if c = '*' then
        let p := scanAux cs none
        (Tok.star :: p.1, p.2)
      else
        let p := scanAux cs none
        (Tok.lit c :: p.1, p.2)
  | c :: cs, some acc =>
      if isWordChar c then scanAux cs (some (acc ++ [c]))
      else if c = ':' then
        let f := flushColon acc
        let p := scanAux cs (some [])
        (f.1 ++ p.1, f.2 ++ p.2)
      else if c = '*' then
        let f := flushColon acc
        let p := scanAux cs none
        (f.1 ++ Tok.star :: p.1, f.2 ++ p.2)
      else
        let f := flushColon acc
        let p := scanAux cs none
        (f.1 ++ Tok.lit c :: p.1, f.2 ++ p.2)

/-- Compiled form of a route path: regex tokens plus `paramNames`. -/
def compilePattern (path : String) : List Tok × List String :=
  scanAux path.data none

/-- Greedy anchored matcher for the compiled regex fragment: `lit c`
matches exactly `c`; `param` matches one or more non-`/` characters
(greedy, capturing); `star` (`.*`) matches any run of characters
(greedy, not capturing).  Returns the captures in group order, as
`RegExp.exec` does on the anchored pattern. -/
def matchToks : List Tok → List Char → Option (List String)
  | [], cs => if cs.isEmpty then some [] else none
  | Tok.lit _ :: _, [] => none
  | Tok.lit c :: ts, d :: cs => if d = c then matchToks ts cs else none
  | Tok.param :: ts, cs =>
      let m := (cs.takeWhile (fun c => decide (c ≠ '/'))).length
      ((List.range m).reverse.map (fun k => k + 1)).findSome? (fun k =>
        (matchToks ts (cs.drop k)).map (fun caps => String.mk (cs.take k) :: caps))
  | Tok.star :: ts, cs =>
      ((List.range (cs.length + 1)).reverse).findSome? (fun k =>
        matchToks ts (cs.drop k))

/-- Anchored match of a compiled pattern against a concrete path. -/
def matchPath (toks : List Tok) (pathname : String) : Option (List String) :=
  matchToks toks pathname.data

/-!
JavaScript object-as-map and web API models.
-/

/-- Assignment `obj[k] = v` on a JavaScript object used as a string map:
an existing key keeps its insertion position and gets the new value, a
new key is appended. -/
def setKey {α : Type} (m : List (String × α)) (k : String) (v : α) :
    List (String × α) :=
  if m.any (fun p => p.1 = k) then
    m.map (fun p => if p.1 = k then (k, v) else p)
  else
    m ++ [(k, v)]

/-- Lookup `obj[k]` on a JavaScript object used as a string map. -/
def lookupAssoc {α : Type} : List (String × α) → String → Option α
  | [], _ => none
  | (k, v) :: rest, key => if k = key then some v else lookupAssoc rest key

/-- Hexadecimal digit test. -/
def isHexDigitChar (c : Char) : Bool :=
  c.isDigit || ('a' ≤ c && c ≤ 'f') || ('A' ≤ c && c ≤ 'F')

/-- Boolean prefix test on character lists. -/
def prefixOfB : List Char → List Char → Bool
  | [], _ => true
  | _ :: _, [] => false
  | a :: as, b :: bs => a = b && prefixOfB as bs

/-- Boolean contiguous-substring test, modelling `String.includes`. -/
def containsSub : List Char → List Char → Bool
  | needle, [] => needle.isEmpty
  | needle, c :: cs => prefixOfB needle (c :: cs) || containsSub needle cs

/-- ASCII model of `String.prototype.toUpperCase`. -/
def toUpperStr (s : String) : String := String.mk (s.data.map Char.toUpper)

/-- Model of `s.startsWith(pre)` (JavaScript compares code units;
characters here). -/
def startsWithB (s pre : String) : Bool := prefixOfB pre.data s.data

/-- Model of `s.slice(n)` for a non-negative `n`. -/
def dropChars (s : String) (n : Nat) : String := String.mk (s.data.drop n)

/-- Split a character list at every occurrence of the separator. -/
def splitSep (sep : Char) : List Char → List (List Char)
  | [] => [[]]
  | c :: cs =>
      if c = sep then [] :: splitSep sep cs
      else
        match splitSep sep cs with
        | [] => [[c]]
        | g :: gs => (c :: g) :: gs

/-- Numeric value of a hexadecimal digit character. -/
def hexVal (c : Char) : Nat :=
  if c.isDigit then c.toNat - '0'.toNat
  else if 'a' ≤ c && c ≤ 'f' then c.toNat - 'a'.toNat + 10
  else if 'A' ≤ c && c ≤ 'F' then c.toNat - 'A'.toNat + 10
  else 0

/-- Decoding of one percent-encoded query component as done by
`URLSearchParams`: `+` becomes a space and `%hh` (two hex digits)
becomes the corresponding character (ASCII model of the decoder). -/
def decodeComponent : List Char → List Char
  | [] => []
  | '+' :: rest => ' ' :: decodeComponent rest
  | '%' :: h₁ :: h₂ :: rest =>
      if isHexDigitChar h₁ && isHexDigitChar h₂ then
        Char.ofNat (16 * hexVal h₁ + hexVal h₂) :: decodeComponent rest
      else '%' :: decodeComponent (h₁ :: h₂ :: rest)
  | c :: rest => c :: decodeComponent rest

/-- Split a `k=v` query pair at the first `=`; a pair with no `=` has
the empty string as value, an `=` in the value part is kept literally. -/
def splitPair (cs : List Char) : List Char × List Char :=
  match cs.findIdx? (fun c => c = '=') with
  | none => (cs, [])
  | some i => (cs.take i, cs.drop (i + 1))

/-- Model of `new URLSearchParams(url.search)` followed by the
`forEach` loop of `findMatchingRoute` that copies every entry into the
`query` object (src/mod.ts lines 237-241): a leading `?` is dropped,
entries are separated by `&`, empty entries are skipped, and duplicate
keys end up with the last value. -/
def parseQuery (search : String) : List (String × String) :=
  let s := if startsWithB search "?" then search.data.drop 1 else search.data
  (splitSep '&' s).foldl
    (fun acc part =>
      if part.isEmpty then acc
      else
        let kv := splitPair part
        setKey acc (String.mk (decodeComponent kv.1))
          (String.mk (decodeComponent kv.2)))
    []

/-- JavaScript whitespace accepted by `parseInt` before the number. -/
def jsSpace (c : Char) : Bool :=
  c = ' ' || c = '\t' || c = '\n' || c = '\r' || c = '\x0b' || c = '\x0c'

/-- Numeric value of decimal digits. -/
def decDigits (cs : List Char) : Nat :=
  cs.foldl (fun n c => 10 * n + (c.toNat - '0'.toNat)) 0

/-- Numeric value of hexadecimal digits. -/
def hexDigits (cs : List Char) : Nat :=
  cs.foldl (fun n c => 16 * n + hexVal c) 0

/-- Model of JavaScript `parseInt(s)` (radix auto-detection): skip
leading whitespace, read an optional sign, then either a `0x`/`0X`
hexadecimal prefix or decimal digits, ignoring trailing garbage.
`none` models the `NaN` result when no digit is found. -/
def parseIntJS (s : String) : Option Int :=
  let cs := s.data.dropWhile jsSpace
  let sgn : Bool × List Char :=
    match cs with
    | '-' :: rest => (true, rest)
    | '+' :: rest => (false, rest)
    | _ => (false, cs)
  let digs : Option Nat :=
    match sgn.2 with
    | '0' :: x :: rest =>
        if x = 'x' || x = 'X' then
          let d := rest.takeWhile isHexDigitChar
          if d.isEmpty then none else some (hexDigits d)
        else
          some (decDigits (sgn.2.takeWhile Char.isDigit))
    | _ =>
        let d := sgn.2.takeWhile Char.isDigit
        if d.isEmpty then none else some (decDigits d)
  digs.map (fun n => if sgn.1 then -(n : Int) else (n : Int))

/-- Model of `headers.get(name)` for a lowercase `name` (header names
are stored lowercased, matching the case-insensitive `Headers` API). -/
def headerGet (req : Req) (name : String) : Option String :=
  lookupAssoc req.headers name

/-- Model of `headers.get("content-type")?.includes(part)`: `false`
when the header is absent, substring containment otherwise. -/
def contentTypeIncludes (req : Req) (part : String) : Bool :=
  match headerGet req "content-type" with
  | none => false
  | some v => containsSub part.data v.data

/-!
The data model of `src/mod.ts` / `src/types.ts`.
-/

/-- `RouteConfig["options"]` of `src/types.ts`. -/
structure RouteOptions where
  parseJson : Bool
  parseUrlEncoded : Bool
  validate : Option (Req → M Bool)

/-- The per-route part of `RouteConfig` accepted by `GET`/`POST`/…:
optional local middleware and optional options. -/
structure RouteConfig where
  middleware : Option (List Middleware)
  options : Option RouteOptions

/-- One entry of `this.routes[method]` (src/mod.ts lines 47-57, stored
by `addRoute` lines 161-169).  `toks` is the compiled `regex`;
`middleware` flattens the optional array (the dispatcher only ever
tests `route?.middleware && route.middleware.length > 0`, which agrees
with testing emptiness of the flattened list). -/
structure Route where
  pattern : String
  toks : List Tok
  paramNames : List String
  handler : Handler
  isWildcard : Bool
  middleware : List Middleware
  options : Option RouteOptions

/-- `ServerOptions` of `src/types.ts` (the fields the dispatcher
reads; `debug` and `defaultHeaders` are never consulted by dispatch). -/
structure ServerOptions where
  maxBodySize : Option Nat
  errorHandler : Option (String → Req → M Response)

/-- The server state: routes per method, global middleware in
registration order, per-method wildcard slots, and options. -/
structure XebecServer where
  routes : List (String × List Route)
  middlewares : List Middleware
  wildcardRoutes : List (String × Handler)
  options : ServerOptions

/-- The constructor (src/mod.ts lines 63-69): `maxBodySize` defaults
to 1 MiB when not supplied. -/
def XebecServer.make (o : ServerOptions) : XebecServer :=
  { routes := []
    middlewares := []
    wildcardRoutes := []
    options :=
      { maxBodySize := some (o.maxBodySize.getD 1048576)
        errorHandler := o.errorHandler } }

/-- `use(middleware)`: append to the global chain. -/
def XebecServer.use (srv : XebecServer) (mw : Middleware) : XebecServer :=
  { srv with middlewares := srv.middlewares ++ [mw] }

/-- The result of `findMatchingRoute` (src/mod.ts lines 243 and
249-254). -/
structure MatchResult where
  handler : Handler
  route : Option Route
  params : List (String × String)
  query : List (String × String)

/-- `addRoute` (src/mod.ts lines 137-171): compile the pattern; make
sure `routes[method]` exists; a path of exactly `*` goes to the
wildcard slot for the method (overwriting a previous one), anything
else is appended to the method's route list. -/
def XebecServer.addRoute (srv : XebecServer) (method path : String)
    (h : Handler) (config : Option RouteConfig) : XebecServer :=
  let compiled := compilePattern path
  let isWildcard := path = "*"
  let srv₁ :=
    if (lookupAssoc srv.routes method).isNone then
      { srv with routes := srv.routes ++ [(method, [])] }
    else srv
  if isWildcard then
    { srv₁ with wildcardRoutes := setKey srv₁.wildcardRoutes method h }
  else
    { srv₁ with
      routes := srv₁.routes.map (fun entry =>
        if entry.1 = method then
          (entry.1, entry.2 ++
            [{ pattern := path
               toks := compiled.1
               paramNames := compiled.2
               handler := h
               isWildcard := isWildcard
               middleware := ((config.bind RouteConfig.middleware).getD [])
               options := config.bind RouteConfig.options }])
        else entry) }

/-- `GET(path, callback, config)` (src/mod.ts line 77). -/
def XebecServer.GET (srv : XebecServer) (path : String) (h : Handler)
    (config : Option RouteConfig) : XebecServer :=
  srv.addRoute "GET" path h config

/-- `POST(path, callback, config)` (src/mod.ts line 81). -/
def XebecServer.POST (srv : XebecServer) (path : String) (h : Handler)
    (config : Option RouteConfig) : XebecServer :=
  srv.addRoute "POST" path h config

/-- The list `this.routes[method] || []`. -/
def XebecServer.routesFor (srv : XebecServer) (method : String) : List Route :=
  (lookupAssoc srv.routes method).getD []

/-- The `params` object built on a regex match (src/mod.ts lines
232-235): `paramNames.forEach((name, i) => params[name] = match[i+1])`,
so a repeated name keeps the last captured value. -/
def buildParams (names caps : List String) : List (String × String) :=
  (names.zip caps).foldl (fun acc nv => setKey acc nv.1 nv.2) []

/-- The `for (const route of routesForMethod)` loop: first route whose
regex matches the pathname, with its captures. -/
def findFirst : List Route → String → Option (Route × List String)
  | [], _ => none
  | r :: rs, pathname =>
      match matchPath r.toks pathname with
      | some caps => some (r, caps)
      | none => findFirst rs pathname

/-- `findMatchingRoute` (src/mod.ts lines 225-258): first matching
concrete route for the method (with params from the captures and query
parsed from the search string), else the method's wildcard slot (with
empty params and empty query), else `none`. -/
def XebecServer.findMatchingRoute (srv : XebecServer)
    (method pathname search : String) : Option MatchResult :=
  match findFirst (srv.routesFor method) pathname with
  | some rc =>
      some { handler := rc.1.handler
             route := some rc.1
             params := buildParams rc.1.paramNames rc.2
             query := parseQuery search }
  | none =>
      match lookupAssoc srv.wildcardRoutes method with
      | some h => some { handler := h, route := none, params := [], query := [] }
      | none => none

/-- `ResponseHelper.json` of `src/types.ts`. -/
def ResponseHelper.json (data : String) (status : Nat) : Response :=
  { status := status
    body := data
    headers := [("content-type", "application/json")] }

/-- `ResponseHelper.error(message, status)` of `src/types.ts`:
a JSON body `\x7b"error": message\x7d` with the given status. -/
def ResponseHelper.error (message : String) (status : Nat) : Response :=
  ResponseHelper.json ("\x7b\"error\":\"" ++ message ++ "\"\x7d") status

/-- The clone `new Req(req, req.clone(), \x7b\x7d, \x7b\x7d)` built by
the dispatcher (src/mod.ts line 184): same request data, fresh empty
`params` and `query`, no parsed body. -/
def mkClone (req : Req) : Req :=
  { req with params := [], query := [], body := Body.empty }

/-- `applyRouteOptions` (src/mod.ts lines 277-312): nothing without
options; otherwise eagerly decode a JSON body when `parseJson` is set
and the content type says JSON, decode form fields when
`parseUrlEncoded` is set and the content type says form-encoding
(duplicate field names collapse via `Object.fromEntries`, last wins),
then run `validate` and throw `Validation failed` when it rejects.
Returns the (possibly body-carrying) context. -/
def applyRouteOptions (clonedReq : Req) (route : Option Route)
    (originalReq : Req) : M Req :=
  match route with
  | none => M.pure clonedReq
  | some rt =>
      match rt.options with
      | none => M.pure clonedReq
      | some opts =>
          M.bind
            (if opts.parseJson && contentTypeIncludes originalReq "application/json" then
              M.bind (M.emit Ev.parseJsonCall) (fun _ =>
                M.bind originalReq.readJson (fun b =>
                  M.pure { clonedReq with body := Body.json b }))
            else M.pure clonedReq)
            (fun ctx₁ =>
              M.bind
                (if opts.parseUrlEncoded &&
                    contentTypeIncludes originalReq "application/x-www-form-urlencoded" then
                  M.bind (M.emit Ev.parseFormCall) (fun _ =>
                    M.bind originalReq.readForm (fun fields =>
                      let fieldMap := fields.foldl (fun acc kv => setKey acc kv.1 kv.2) []
                      M.pure { ctx₁ with body := Body.form fieldMap }))
                else M.pure ctx₁)
                (fun ctx₂ =>
                  match opts.validate with
                  | none => M.pure ctx₂
                  | some v =>
                      M.bind (M.emit Ev.validateCall) (fun _ =>
                        M.bind (v ctx₂) (fun isValid =>
                          if isValid then M.pure ctx₂
                          else M.throw "Validation failed"))))

/-- `processRouteMiddleware` (src/mod.ts lines 260-275): run the
route-local chain in order, the final handler as the innermost step.
The index argument mirrors `middlewareIndex` for the emitted events. -/
def processRouteMiddleware (ctx : Req) :
    List Middleware → Nat → Handler → M Response
  | [], _, finalHandler =>
      M.bind (M.emit Ev.handlerCall) (fun _ => finalHandler ctx)
  | mw :: rest, i, finalHandler =>
      M.bind (M.emit (Ev.localMw i)) (fun _ =>
        mw ctx (processRouteMiddleware ctx rest (i + 1) finalHandler))

/-- The terminal step of the global chain (src/mod.ts lines 194-213):
resolve the route; on no match answer 404; otherwise set `params` and
`query` on the context, then either enter the route-local chain (when
present) or apply the route options and invoke the handler. -/
def XebecServer.terminalStep (srv : XebecServer) (clonedReq req : Req) :
    M Response :=
  match srv.findMatchingRoute (toUpperStr req.method) req.pathname req.search with
  | none => M.pure (ResponseHelper.error "Not found" 404)
  | some mr =>
      let ctx := { clonedReq with params := mr.params, query := mr.query }
      match mr.route with
      | some rt =>
          if rt.middleware.length > 0 then
            processRouteMiddleware ctx rt.middleware 0 mr.handler
          else
            M.bind (applyRouteOptions ctx (some rt) req) (fun ctx' =>
              M.bind (M.emit Ev.handlerCall) (fun _ => mr.handler ctx'))
      | none =>
          M.bind (applyRouteOptions ctx none req) (fun ctx' =>
            M.bind (M.emit Ev.handlerCall) (fun _ => mr.handler ctx'))

/-- `runMiddleware` (src/mod.ts lines 188-214), modelled on the suffix
of the global chain still to run (`index`-based in the source; the two
agree when every middleware resumes `next` at most once, the documented
contract).  The index argument is kept for the emitted events. -/
def XebecServer.runMw (srv : XebecServer) (clonedReq req : Req) :
    List Middleware → Nat → M Response
  | [], _ => srv.terminalStep clonedReq req
  | mw :: rest, i =>
      M.bind (M.emit (Ev.globalMw i)) (fun _ =>
        mw clonedReq (srv.runMw clonedReq req rest (i + 1)))

/-- The declared content length (src/mod.ts line 179):
`parseInt(req.headers.get("content-length") || "0")`; `none` is `NaN`. -/
def declaredLen (req : Req) : Option Int :=
  parseIntJS
    (match headerGet req "content-length" with
     | none => "0"
     | some v => if v = "" then "0" else v)

/-- The configured limit `this.options.maxBodySize ?? 1024 * 1024`. -/
def XebecServer.maxBytes (srv : XebecServer) : Int :=
  ((srv.options.maxBodySize).getD 1048576 : Nat)

/-- The body-size test (src/mod.ts line 180): `contentLength >
maxBodySize`; a `NaN` comparison is false. -/
def XebecServer.oversize (srv : XebecServer) (req : Req) : Bool :=
  match declaredLen req with
  | some n => srv.maxBytes < n
  | none => false

/-- The `try … catch` half of the dispatcher (src/mod.ts lines
186-222): run the global chain; a thrown error becomes the configured
`errorHandler`'s response, or the generic 500. -/
def XebecServer.dispatchCore (srv : XebecServer) (req : Req) : M Response :=
  let clonedReq := mkClone req
  M.tryCatch (srv.runMw clonedReq req srv.middlewares 0)
    (fun e =>
      match srv.options.errorHandler with
      | some eh => eh e clonedReq
      | none => M.pure (ResponseHelper.error "Internal Server Error" 500))

/-- `handler(req)` (src/mod.ts lines 173-223), the dispatch entry
point: the 413 short-circuit on the declared content length, then the
guarded middleware chain. -/
def XebecServer.handler (srv : XebecServer) (req : Req) : M Response :=
  if srv.oversize req then
    M.pure (ResponseHelper.error "Request entity too large" 413)
  else
    srv.dispatchCore req

/-- Prefix stripping done by the mount middleware (src/mod.ts lines
111-118): `pathname.slice(prefix.length) || "/"`, same query string,
same method/headers/body, `params`/`query` carried over. -/
def mountStrip (pfx : String) (req : Req) : Req :=
  { req with
    pathname :=
      if dropChars req.pathname pfx.data.length = "" then "/"
      else dropChars req.pathname pfx.data.length }

/-- The middleware registered by `route(prefix, instance)` (src/mod.ts
lines 106-134): pass through when the path does not start with the
prefix; otherwise dispatch the prefix-stripped request to the child.
A child response other than 404 is returned as-is; a 404 falls out of
the `try` block into `next()`.  A child error is answered by the
child's own `errorHandler` when configured, else rethrown. -/
def mountMiddleware (pfx : String) (child : XebecServer) : Middleware :=
  fun req next =>
    if startsWithB req.pathname pfx then
      M.bind
        (M.tryCatch
          (M.bind (child.handler (mountStrip pfx req)) (fun response =>
            if response.status ≠ 404 then M.pure (some response)
            else M.pure none))
          (fun e =>
            match child.options.errorHandler with
            | some eh => M.bind (eh e (mountStrip pfx req)) (fun r => M.pure (some r))
            | none => M.throw e))
        (fun outcome =>
          match outcome with
          | some r => M.pure r
          | none => next)
    else next

/-- `route(prefix, instance)` (src/mod.ts lines 101-135): normalize
the prefix to start with `/` and register the mount middleware on the
parent's global chain. -/
def XebecServer.route (srv : XebecServer) (pfx : String)
    (child : XebecServer) : XebecServer :=
  srv.use (mountMiddleware (if startsWithB pfx "/" then pfx else "/" ++ pfx) child)

/-!
Basic lemmas about the effect monad and the route table.
-/

theorem M.pure_apply {α : Type} (a : α) (t : List Ev) :
    M.pure a t = (Except.ok a, t) := rfl

theorem M.throw_apply {α : Type} (e : String) (t : List Ev) :
    (M.throw e : M α) t = (Except.error e, t) := rfl

theorem M.emit_apply (ev : Ev) (t : List Ev) :
    M.emit ev t = (Except.ok (), t ++ [ev]) := rfl

theorem M.bind_ok {α β : Type} {x : M α} {t t' : List Ev} {a : α}
    (f : α → M β) (h : x t = (Except.ok a, t')) :
    M.bind x f t = f a t' := by
  unfold M.bind
  rw [h]

theorem M.bind_err {α β : Type} {x : M α} {t t' : List Ev} {e : String}
    (f : α → M β) (h : x t = (Except.error e, t')) :
    M.bind x f t = (Except.error e, t') := by
  unfold M.bind
  rw [h]

theorem M.tryCatch_ok {α : Type} {x : M α} {t t' : List Ev} {a : α}
    (h : String → M α) (hx : x t = (Except.ok a, t')) :
    M.tryCatch x h t = (Except.ok a, t') := by
  unfold M.tryCatch
  rw [hx]

theorem M.tryCatch_err {α : Type} {x : M α} {t t' : List Ev} {e : String}
    (h : String → M α) (hx : x t = (Except.error e, t')) :
    M.tryCatch x h t = h e t' := by
  unfold M.tryCatch
  rw [hx]

theorem findFirst_eq_none_iff (l : List Route) (pathname : String) :
    findFirst l pathname = none ↔
      ∀ r ∈ l, matchPath r.toks pathname = none := by
  induction l with
  | nil => simp [findFirst]
  | cons r rs ih =>
      simp only [findFirst]
      cases h : matchPath r.toks pathname with
      | some caps => simp [h]
      | none => simp [h, ih]

theorem lookupAssoc_append_right {α : Type} (l : List (String × α))
    (k : String) (v : α) (h : lookupAssoc l k = none) :
    lookupAssoc (l ++ [(k, v)]) k = some v := by
  induction l with
  | nil => simp [lookupAssoc]
  | cons p rest ih =>
      by_cases hk : p.1 = k
      · simp [lookupAssoc, hk] at h
      · simp only [lookupAssoc, List.cons_append] at h ⊢
        rw [if_neg hk] at h ⊢
        exact ih h

theorem lookupAssoc_append_other {α : Type} (l : List (String × α))
    (k k' : String) (v : α) (hne : k ≠ k') :
    lookupAssoc (l ++ [(k, v)]) k' = lookupAssoc l k' := by
  induction l with
  | nil => simp [lookupAssoc, hne]
  | cons p rest ih =>
      simp only [lookupAssoc, List.cons_append]
      by_cases hk : p.1 = k'
      · rw [if_pos hk, if_pos hk]
      · rw [if_neg hk, if_neg hk]
        exact ih

theorem addRoute_star_routes (srv : XebecServer) (m : String)
    (h : Handler) (cfg : Option RouteConfig) :
    (srv.addRoute m "*" h cfg).routes =
      if (lookupAssoc srv.routes m).isNone then srv.routes ++ [(m, [])]
      else srv.routes := by
  unfold XebecServer.addRoute
  by_cases hl : (lookupAssoc srv.routes m).isNone
  · simp [hl]
  · simp [hl]

/-- Registering a wildcard (`addRoute` with path `*`) leaves every
method's concrete route list unchanged: the only touch on `routes` is
initializing an absent method entry to the empty list, which is what
`routes[method] || []` already yields. -/
theorem routesFor_addRoute_star (srv : XebecServer) (m : String)
    (h : Handler) (cfg : Option RouteConfig) (m' : String) :
    (srv.addRoute m "*" h cfg).routesFor m' = srv.routesFor m' := by
  unfold XebecServer.routesFor
  rw [addRoute_star_routes]
  by_cases hl : (lookupAssoc srv.routes m).isNone
  · rw [if_pos hl]
    rw [Option.isNone_iff_eq_none] at hl
    by_cases hm : m = m'
    · subst hm
      rw [lookupAssoc_append_right _ _ _ hl, hl]
      rfl
    · rw [lookupAssoc_append_other _ _ _ _ hm]
  · rw [if_neg hl]

/-- The trace left by a run of `n` local middlewares starting at index
`i`. -/
def localEvs : Nat → Nat → List Ev
  | _, 0 => []
  | i, Nat.succ n => Ev.localMw i :: localEvs (i + 1) n

/-- A route-local chain of transparent middlewares (each one returns
`next()` unchanged) runs the final handler on the unmodified context,
emitting one event per middleware and then the handler event — and
never applies any route option. -/
theorem processRouteMiddleware_pass (ctx : Req) (l : List Middleware)
    (fin : Handler) (resp : Response)
    (hpass : ∀ mw ∈ l, ∀ c k, mw c k = k)
    (hfin : ∀ t, fin ctx t = (Except.ok resp, t)) :
    ∀ i t, processRouteMiddleware ctx l i fin t =
      (Except.ok resp, t ++ localEvs i l.length ++ [Ev.handlerCall]) := by
  induction l with
  | nil =>
      intro i t
      unfold processRouteMiddleware
      rw [M.bind_ok _ (M.emit_apply Ev.handlerCall t), hfin]
      simp [localEvs]
  | cons mw rest ih =>
      intro i t
      unfold processRouteMiddleware
      rw [M.bind_ok _ (M.emit_apply (Ev.localMw i) t)]
      rw [hpass mw (List.mem_cons_self mw rest)]
      rw [ih (fun m hm => hpass m (List.mem_cons_of_mem mw hm)) (i + 1) (t ++ [Ev.localMw i])]
      simp [localEvs, List.length_cons]

/-- The standalone `.*` run matches any character list with no
captures. -/
theorem matchToks_star_all (cs : List Char) :
    matchToks [Tok.star] cs = some [] := by
  unfold matchToks
  rw [List.range_succ, List.reverse_append]
  simp only [List.reverse_cons, List.reverse_nil, List.nil_append,
    List.singleton_append, List.findSome?_cons]
  rw [List.drop_length]
  rfl

/-- Registering any pattern other than the standalone `*` never
touches the wildcard slots. -/
theorem addRoute_notStar_wildcards (srv : XebecServer) (m path : String)
    (h : Handler) (cfg : Option RouteConfig) (hp : path ≠ "*") :
    (srv.addRoute m path h cfg).wildcardRoutes = srv.wildcardRoutes := by
  unfold XebecServer.addRoute
  by_cases hl : (lookupAssoc srv.routes m).isNone
  · simp [hl, hp]
  · simp [hl, hp]

/-!
Concrete fixtures used by witnesses and counterexamples.
-/

/-- A plain 200 response. -/
def okResp : Response := { status := 200, body := "ok", headers := [] }

/-- A request with the given path, search string and headers, carrying
no decodable body. -/
def reqFor (pathname search : String) (headers : List (String × String)) : Req :=
  { method := "GET", pathname := pathname, search := search, headers := headers
    readJson := M.throw "no body", readForm := M.throw "no body"
    params := [], query := [], body := Body.empty }

/-- Server options with every field left unset. -/
def plainOptions : ServerOptions := { maxBodySize := none, errorHandler := none }

/-- A transparent middleware: `(req, next) => next()`. -/
def passMw : Middleware := fun _ next => next

/-- A handler answering the fixed 200 response. -/
def okHandler : Handler := fun _ => M.pure okResp

/-!
Claim theorems.
-/

/-- C3: a request whose declared `content-length` header parses to a
number strictly greater than the configured `maxBodySize` is answered
with the 413 response, with the trace unchanged — so no global
middleware, no route-local middleware and no handler is invoked. -/
theorem oversize_request_413 (srv : XebecServer) (req : Req)
    (s : String) (n : Int)
    (hs : headerGet req "content-length" = some s)
    (hne : s ≠ "")
    (hp : parseIntJS s = some n)
    (hgt : srv.maxBytes < n) :
    ∀ t, srv.handler req t =
      (Except.ok (ResponseHelper.error "Request entity too large" 413), t) := by
  intro t
  have hov : srv.oversize req = true := by
    simp [XebecServer.oversize, declaredLen, hs, hne, hp, hgt]
  unfold XebecServer.handler
  rw [hov]
  rfl

/-- Witness for C3: on a server carrying a global middleware and a
route, a request declaring `content-length: 2000000` (limit 1 MiB) is
answered 413 with an empty event trace. -/
theorem oversize_request_413_witness :
    headerGet (reqFor "/" "" [("content-length", "2000000")]) "content-length" =
        some "2000000" ∧
    (((XebecServer.make plainOptions).use passMw).addRoute "GET" "/" okHandler
        none).handler (reqFor "/" "" [("content-length", "2000000")]) [] =
      (Except.ok (ResponseHelper.error "Request entity too large" 413), []) :=
  ⟨rfl,
    oversize_request_413
      (((XebecServer.make plainOptions).use passMw).addRoute "GET" "/" okHandler none)
      (reqFor "/" "" [("content-length", "2000000")])
      "2000000" 2000000 rfl (by decide) (by decide) (by decide) []⟩

/-- C10: when the `content-length` header is absent, or its value does
not parse (`parseInt` yields `NaN`) or parses to 0, the size check
passes and dispatch proceeds into the guarded middleware chain — the
request body itself is never consulted by the check. -/
theorem sizeCheck_lenient (srv : XebecServer) (req : Req)
    (h : headerGet req "content-length" = none ∨
         ∃ s, headerGet req "content-length" = some s ∧
           (parseIntJS (if s = "" then "0" else s) = none ∨
            parseIntJS (if s = "" then "0" else s) = some 0)) :
    ∀ t, srv.handler req t = srv.dispatchCore req t := by
  have hmax : (0 : Int) ≤ srv.maxBytes := by
    unfold XebecServer.maxBytes
    exact Int.natCast_nonneg _
  have hov : srv.oversize req = false := by
    unfold XebecServer.oversize declaredLen
    rcases h with habs | ⟨s, hs, hval⟩
    · rw [habs]
      have : parseIntJS "0" = some 0 := by decide
      rw [this]
      simp
      omega
    · rw [hs]
      rcases hval with hnan | hzero
      · rw [hnan]
      · rw [hzero]
        simp
        omega
  intro t
  unfold XebecServer.handler
  rw [hov]
  rfl

/-- Witness for C10: a request declaring `content-length: abc`
(`parseInt` gives `NaN`) passes the size check and enters the chain. -/
theorem sizeCheck_lenient_witness :
    parseIntJS "abc" = none ∧
    ((XebecServer.make plainOptions).use passMw).handler
        (reqFor "/" "" [("content-length", "abc")]) [] =
      ((XebecServer.make plainOptions).use passMw).dispatchCore
        (reqFor "/" "" [("content-length", "abc")]) [] :=
  ⟨by decide,
    sizeCheck_lenient ((XebecServer.make plainOptions).use passMw)
      (reqFor "/" "" [("content-length", "abc")])
      (Or.inr ⟨"abc", rfl, Or.inl (by decide)⟩) []⟩

/-- C5: dispatch never lets an error out of the guarded region: when
the run of the global chain (with its terminal route-resolution /
option-application / handler step) throws, the dispatcher answers with
the configured `errorHandler`'s output, or the generic 500 response
when none is configured; with no configured `errorHandler` the
dispatcher's result is always an `ok` response, never an error. -/
theorem dispatch_error_recovered (srv : XebecServer) (req : Req)
    (t t' : List Ev) (e : String)
    (hov : srv.oversize req = false)
    (herr : srv.runMw (mkClone req) req srv.middlewares 0 t = (Except.error e, t')) :
    (srv.handler req t =
      match srv.options.errorHandler with
      | some eh => eh e (mkClone req) t'
      | none => (Except.ok (ResponseHelper.error "Internal Server Error" 500), t'))
    ∧ (srv.options.errorHandler = none →
        ∀ u, ∃ r u', srv.handler req u = (Except.ok r, u')) := by
  constructor
  · unfold XebecServer.handler
    rw [hov]
    show srv.dispatchCore req t = _
    unfold XebecServer.dispatchCore
    rw [M.tryCatch_err _ herr]
    cases srv.options.errorHandler with
    | some eh => rfl
    | none => rfl
  · intro hnone u
    unfold XebecServer.handler
    rw [hov]
    show ∃ r u', srv.dispatchCore req u = (Except.ok r, u')
    unfold XebecServer.dispatchCore
    rcases hx : srv.runMw (mkClone req) req srv.middlewares 0 u with ⟨res, u₂⟩
    cases res with
    | ok r => exact ⟨r, u₂, M.tryCatch_ok _ hx⟩
    | error e₂ =>
        refine ⟨ResponseHelper.error "Internal Server Error" 500, u₂, ?_⟩
        rw [M.tryCatch_err _ hx, hnone]
        rfl

/-- Witness for C5: a global middleware that throws is converted to
the generic 500 response (no `errorHandler` configured). -/
theorem dispatch_error_recovered_witness :
    ((XebecServer.make plainOptions).use (fun _ _ => M.throw "boom")).handler
        (reqFor "/" "" []) [] =
      (Except.ok (ResponseHelper.error "Internal Server Error" 500), [Ev.globalMw 0]) :=
  (dispatch_error_recovered
    ((XebecServer.make plainOptions).use (fun _ _ => M.throw "boom"))
    (reqFor "/" "" []) [] [Ev.globalMw 0] "boom" rfl rfl).1

/-- C4: `route(prefix, child)` appends exactly one mount middleware to
the parent's global chain, and for a request whose path starts with the
(normalized) prefix, when the child dispatcher answers: a 404 makes the
mount middleware fall through to `next()` (so later parent routes and
sibling mounts can still claim the path), any other status is returned
as-is. -/
theorem mount_child_404_falls_through (pfx : String) (child : XebecServer)
    (req : Req) (next : M Response) (t t' : List Ev) (resp : Response)
    (hpre : startsWithB req.pathname pfx = true)
    (hchild : child.handler (mountStrip pfx req) t = (Except.ok resp, t')) :
    (mountMiddleware pfx child req next t =
      if resp.status = 404 then next t' else (Except.ok resp, t'))
    ∧ ∀ (parent : XebecServer) (rawPfx : String),
        (parent.route rawPfx child).middlewares =
          parent.middlewares ++
            [mountMiddleware (if startsWithB rawPfx "/" then rawPfx else "/" ++ rawPfx) child] := by
  constructor
  · unfold mountMiddleware
    rw [hpre]
    show M.bind (M.tryCatch (M.bind (child.handler (mountStrip pfx req)) _) _) _ t = _
    by_cases h404 : resp.status = 404
    · have hx : M.bind (child.handler (mountStrip pfx req))
          (fun response => if response.status ≠ 404 then M.pure (some response)
            else M.pure none) t = (Except.ok none, t') := by
        rw [M.bind_ok _ hchild]
        simp [h404, M.pure]
      rw [M.bind_ok _ (M.tryCatch_ok _ hx), if_pos h404]
    · have hx : M.bind (child.handler (mountStrip pfx req))
          (fun response => if response.status ≠ 404 then M.pure (some response)
            else M.pure none) t = (Except.ok (some resp), t') := by
        rw [M.bind_ok _ hchild]
        simp [h404, M.pure]
      rw [M.bind_ok _ (M.tryCatch_ok _ hx), if_neg h404]
      rfl
  · intro parent rawPfx
    rfl

/-- Witness for C4: mounting a child with no routes under `/files`,
the child answers 404 for `/files/x` and the mount middleware resumes
`next()`. -/
theorem mount_child_404_falls_through_witness :
    (XebecServer.make plainOptions).handler
        (mountStrip "/files" (reqFor "/files/x" "" [])) [] =
      (Except.ok (ResponseHelper.error "Not found" 404), []) ∧
    mountMiddleware "/files" (XebecServer.make plainOptions)
        (reqFor "/files/x" "" []) (M.pure okResp) [] = (Except.ok okResp, []) := by
  refine ⟨rfl, ?_⟩
  have h := (mount_child_404_falls_through "/files" (XebecServer.make plainOptions)
    (reqFor "/files/x" "" []) (M.pure okResp) [] [] (ResponseHelper.error "Not found" 404)
    rfl rfl).1
  rw [if_pos (show (ResponseHelper.error "Not found" 404).status = 404 from rfl)] at h
  exact h

/-- C6: when route resolution answers with the wildcard slot
(`route = null`), no concrete route of that method matched the path and
the params mapping is empty; moreover registering a wildcard — at any
time — never changes any method's concrete route list, and a path
resolved by a concrete route resolves to the same result after a
wildcard is registered. -/
theorem wildcard_only_when_no_concrete (srv : XebecServer)
    (method pathname search : String) (mr : MatchResult)
    (hfind : srv.findMatchingRoute method pathname search = some mr)
    (hwild : mr.route = none) :
    ((∀ rt ∈ srv.routesFor method, matchPath rt.toks pathname = none)
      ∧ mr.params = [])
    ∧ ∀ (srv₂ : XebecServer) (m₂ : String) (h₂ : Handler)
        (cfg : Option RouteConfig) (mth pth srch : String)
        (mr₂ : MatchResult) (rt₂ : Route),
        srv₂.findMatchingRoute mth pth srch = some mr₂ →
        mr₂.route = some rt₂ →
        (srv₂.addRoute m₂ "*" h₂ cfg).findMatchingRoute mth pth srch = some mr₂ := by
  constructor
  · unfold XebecServer.findMatchingRoute at hfind
    cases hf : findFirst (srv.routesFor method) pathname with
    | some rc =>
        rw [hf] at hfind
        have hmr := Option.some.inj hfind
        rw [← hmr] at hwild
        simp at hwild
    | none =>
        rw [hf] at hfind
        refine ⟨(findFirst_eq_none_iff _ _).mp hf, ?_⟩
        cases hw : lookupAssoc srv.wildcardRoutes method with
        | some h =>
            rw [hw] at hfind
            have hmr := Option.some.inj hfind
            rw [← hmr]
        | none => rw [hw] at hfind; cases hfind
  · intro srv₂ m₂ h₂ cfg mth pth srch mr₂ rt₂ hfind₂ hconc
    unfold XebecServer.findMatchingRoute at hfind₂ ⊢
    rw [routesFor_addRoute_star]
    cases hf : findFirst (srv₂.routesFor mth) pth with
    | some rc => rw [hf] at hfind₂; exact hfind₂
    | none =>
        rw [hf] at hfind₂
        cases hw : lookupAssoc srv₂.wildcardRoutes mth with
        | some h =>
            rw [hw] at hfind₂
            have hmr := Option.some.inj hfind₂
            rw [← hmr] at hconc
            simp at hconc
        | none => rw [hw] at hfind₂; cases hfind₂

/-- The resolution result of the witness server for C6. -/
def mrWildcard : MatchResult :=
  { handler := okHandler, route := none, params := [], query := [] }

/-- Witness for C6: a server whose `GET` table holds one concrete
route `/a` and a wildcard; `/zzz` resolves to the wildcard with empty
params, and the concrete route does not match `/zzz`. -/
theorem wildcard_only_when_no_concrete_witness :
    (((XebecServer.make plainOptions).addRoute "GET" "/a" okHandler none).addRoute
        "GET" "*" okHandler none).findMatchingRoute "GET" "/zzz" "" =
      some mrWildcard ∧
    (∀ rt ∈ (((XebecServer.make plainOptions).addRoute "GET" "/a" okHandler
        none).addRoute "GET" "*" okHandler none).routesFor "GET",
      matchPath rt.toks "/zzz" = none) ∧
    mrWildcard.params = [] :=
  ⟨rfl,
    (wildcard_only_when_no_concrete
      (((XebecServer.make plainOptions).addRoute "GET" "/a" okHandler none).addRoute
        "GET" "*" okHandler none)
      "GET" "/zzz" "" mrWildcard rfl rfl).1⟩

/-- A route option object whose `validate` predicate rejects every
request. -/
def rejectOpts : RouteOptions :=
  { parseJson := false, parseUrlEncoded := false
    validate := some (fun _ => M.pure false) }

/-- C1 counterexample: on a route whose `validate` rejects (no local
middleware, no `errorHandler`), dispatch answers the generic **500**
response — whose status is not in the 400 range — because
`applyRouteOptions` surfaces the rejection by throwing
`Validation failed`, which the dispatcher converts like any other
error.  (The handler is indeed not invoked: the trace holds only the
`validate` call.) -/
theorem validate_reject_counterexample :
    ((XebecServer.make plainOptions).addRoute "GET" "/v" okHandler
        (some { middleware := none, options := some rejectOpts })).handler
        (reqFor "/v" "" []) [] =
      (Except.ok (ResponseHelper.error "Internal Server Error" 500), [Ev.validateCall]) ∧
    ¬(400 ≤ (ResponseHelper.error "Internal Server Error" 500).status ∧
        (ResponseHelper.error "Internal Server Error" 500).status < 500) :=
  ⟨rfl, by decide⟩

/-- A rejecting `validate` makes `applyRouteOptions` throw
`Validation failed` (body parsing disabled here). -/
theorem applyRouteOptions_validate_false (ctx req : Req) (rt : Route)
    (opts : RouteOptions) (v : Req → M Bool) (t tv : List Ev)
    (hopts : rt.options = some opts)
    (hpj : opts.parseJson = false)
    (hpu : opts.parseUrlEncoded = false)
    (hv : opts.validate = some v)
    (hrun : v ctx (t ++ [Ev.validateCall]) = (Except.ok false, tv)) :
    applyRouteOptions ctx (some rt) req t = (Except.error "Validation failed", tv) := by
  unfold applyRouteOptions
  simp only [hopts, hpj, hpu, hv, Bool.false_and, Bool.false_eq_true, if_false]
  rw [M.bind_ok _ (M.pure_apply ctx t), M.bind_ok _ (M.pure_apply ctx t)]
  rw [M.bind_ok _ (M.emit_apply Ev.validateCall t)]
  rw [M.bind_ok _ hrun]
  rfl

/-- C1 amended: when the resolved route (without local middleware) has
a rejecting `validate` predicate, dispatch throws internally and — with
no `errorHandler` configured — answers the generic 500 response; the
route's handler is not invoked (the final trace is exactly the one the
predicate left, which holds no handler event unless the predicate
itself emitted one). -/
theorem validate_reject_yields_error_path (srv : XebecServer) (req : Req)
    (mr : MatchResult) (rt : Route) (opts : RouteOptions)
    (v : Req → M Bool) (tv : List Ev)
    (hov : srv.oversize req = false)
    (hmw : srv.middlewares = [])
    (heh : srv.options.errorHandler = none)
    (hfind : srv.findMatchingRoute (toUpperStr req.method) req.pathname req.search = some mr)
    (hroute : mr.route = some rt)
    (hlm : rt.middleware = [])
    (hopts : rt.options = some opts)
    (hpj : opts.parseJson = false)
    (hpu : opts.parseUrlEncoded = false)
    (hv : opts.validate = some v)
    (hrun : v { mkClone req with params := mr.params, query := mr.query }
        [Ev.validateCall] = (Except.ok false, tv)) :
    srv.handler req [] =
      (Except.ok (ResponseHelper.error "Internal Server Error" 500), tv) ∧
    (Ev.handlerCall ∉ tv → Ev.handlerCall ∉ (srv.handler req []).2) := by
  have hterm : srv.terminalStep (mkClone req) req [] =
      (Except.error "Validation failed", tv) := by
    unfold XebecServer.terminalStep
    rw [hfind]
    simp only [hroute, hlm, List.length_nil, Nat.lt_irrefl, if_false]
    rw [M.bind_err _ (applyRouteOptions_validate_false _ req rt opts v [] tv
      hopts hpj hpu hv (by simpa using hrun))]
  have hrunmw : srv.runMw (mkClone req) req srv.middlewares 0 [] =
      (Except.error "Validation failed", tv) := by
    rw [hmw]
    exact hterm
  have hmain : srv.handler req [] =
      (Except.ok (ResponseHelper.error "Internal Server Error" 500), tv) := by
    unfold XebecServer.handler
    rw [hov]
    show srv.dispatchCore req [] = _
    unfold XebecServer.dispatchCore
    rw [M.tryCatch_err _ hrunmw, heh]
    rfl
  exact ⟨hmain, fun hnot => by rw [hmain]; exact hnot⟩

/-- Witness for C1 amended: the concrete rejecting route of the
counterexample satisfies every hypothesis, and dispatch answers 500
with the handler uninvoked. -/
theorem validate_reject_yields_error_path_witness :
    ((XebecServer.make plainOptions).addRoute "GET" "/v" okHandler
        (some { middleware := none, options := some rejectOpts })).handler
        (reqFor "/v" "" []) [] =
      (Except.ok (ResponseHelper.error "Internal Server Error" 500), [Ev.validateCall]) ∧
    Ev.handlerCall ∉ [Ev.validateCall] := by
  have h := validate_reject_yields_error_path
    ((XebecServer.make plainOptions).addRoute "GET" "/v" okHandler
      (some { middleware := none, options := some rejectOpts }))
    (reqFor "/v" "" [])
    { handler := okHandler
      route := some
        { pattern := "/v", toks := [Tok.lit '/', Tok.lit 'v'], paramNames := []
          handler := okHandler, isWildcard := false, middleware := []
          options := some rejectOpts }
      params := [], query := [] }
    { pattern := "/v", toks := [Tok.lit '/', Tok.lit 'v'], paramNames := []
      handler := okHandler, isWildcard := false, middleware := []
      options := some rejectOpts }
    rejectOpts (fun _ => M.pure false) [Ev.validateCall]
    rfl rfl rfl rfl rfl rfl rfl rfl rfl rfl rfl
  exact ⟨h.1, by decide⟩

/-- C2 counterexample: a route carrying both a non-empty local
middleware chain and options with a rejecting `validate` dispatches
straight through the local chain to the handler: the 200 response
comes back and the trace shows the options were never applied (no
`validate` event), contradicting the claim that options are applied
before the local middleware and handler run. -/
theorem options_before_local_middleware_counterexample :
    ((XebecServer.make plainOptions).addRoute "GET" "/p" okHandler
        (some { middleware := some [passMw], options := some rejectOpts })).handler
        (reqFor "/p" "" []) [] =
      (Except.ok okResp, [Ev.localMw 0, Ev.handlerCall]) ∧
    Ev.validateCall ∉ [Ev.localMw 0, Ev.handlerCall] :=
  ⟨rfl, by decide⟩

/-- C2 amended: route options are applied only when the resolved
route's local middleware chain is empty.  When the chain is non-empty,
dispatch enters `processRouteMiddleware` directly and
`applyRouteOptions` is skipped entirely: with transparent local
middlewares and a pure handler, the handler receives the context with
no parsed body and the trace holds only the local-middleware and
handler events — no option was applied, whatever the options say. -/
theorem options_skipped_with_local_middleware (srv : XebecServer) (req : Req)
    (mr : MatchResult) (rt : Route) (resp : Response)
    (hov : srv.oversize req = false)
    (hmw : srv.middlewares = [])
    (hfind : srv.findMatchingRoute (toUpperStr req.method) req.pathname req.search = some mr)
    (hroute : mr.route = some rt)
    (hne : rt.middleware ≠ [])
    (hpass : ∀ mw ∈ rt.middleware, ∀ c k, mw c k = k)
    (hh : ∀ t, mr.handler { mkClone req with params := mr.params, query := mr.query } t =
      (Except.ok resp, t)) :
    srv.handler req [] =
      (Except.ok resp, localEvs 0 rt.middleware.length ++ [Ev.handlerCall]) := by
  have hterm : srv.terminalStep (mkClone req) req [] =
      (Except.ok resp, localEvs 0 rt.middleware.length ++ [Ev.handlerCall]) := by
    unfold XebecServer.terminalStep
    rw [hfind]
    simp only [hroute, if_pos (List.length_pos.mpr hne)]
    rw [processRouteMiddleware_pass _ _ _ resp hpass hh 0 []]
    simp
  unfold XebecServer.handler
  rw [hov]
  show srv.dispatchCore req [] = _
  unfold XebecServer.dispatchCore
  rw [hmw]
  exact M.tryCatch_ok _ hterm

/-- Witness for C2 amended: the counterexample's server satisfies the
hypotheses, and its dispatch runs local middleware then handler. -/
theorem options_skipped_with_local_middleware_witness :
    ((XebecServer.make plainOptions).addRoute "GET" "/p" okHandler
        (some { middleware := some [passMw], options := some rejectOpts })).handler
        (reqFor "/p" "" []) [] =
      (Except.ok okResp, localEvs 0 [passMw].length ++ [Ev.handlerCall]) :=
  options_skipped_with_local_middleware
    ((XebecServer.make plainOptions).addRoute "GET" "/p" okHandler
      (some { middleware := some [passMw], options := some rejectOpts }))
    (reqFor "/p" "" [])
    { handler := okHandler
      route := some
        { pattern := "/p", toks := [Tok.lit '/', Tok.lit 'p'], paramNames := []
          handler := okHandler, isWildcard := false, middleware := [passMw]
          options := some rejectOpts }
      params := [], query := [] }
    { pattern := "/p", toks := [Tok.lit '/', Tok.lit 'p'], paramNames := []
      handler := okHandler, isWildcard := false, middleware := [passMw]
      options := some rejectOpts }
    okResp rfl rfl rfl rfl
    (by simp)
    (by
      intro mw hmw c k
      rw [List.mem_singleton.mp hmw]
      rfl)
    (fun t => rfl)

/-- C7 counterexample: `addRoute` accepts the template `/a/:x/:x`,
which repeats the parameter name `x`, without raising or rejecting:
the route is registered verbatim, with both occurrences recorded in
`paramNames`.  (`addRoute` contains no check and no throw at all.) -/
theorem duplicate_param_counterexample :
    (((XebecServer.make plainOptions).addRoute "GET" "/a/:x/:x" okHandler
        none).routesFor "GET").map
        (fun r => (r.pattern, r.paramNames, r.isWildcard)) =
      [("/a/:x/:x", (["x", "x"], false))] := rfl

/-- C7 amended: a template repeating a parameter name is silently
accepted at registration; at match time the `forEach` assignment makes
the last occurrence's captured substring win in the params mapping. -/
theorem duplicate_param_silently_accepted :
    (((XebecServer.make plainOptions).addRoute "GET" "/a/:x/:x" okHandler
        none).routesFor "GET").map Route.paramNames = [["x", "x"]] ∧
    (∀ n a b : String, buildParams [n, n] [a, b] = [(n, b)]) ∧
    ((((XebecServer.make plainOptions).addRoute "GET" "/a/:x/:x" okHandler
        none).findMatchingRoute "GET" "/a/u/v" "").map MatchResult.params =
      some [("x", "v")]) := by
  refine ⟨rfl, ?_, rfl⟩
  intro n a b
  simp [buildParams, setKey]

/-- Rendering of a query mapping into a response body, used to observe
what the dispatcher stored in `ctx.query`. -/
def renderQuery (q : List (String × String)) : String :=
  (q.map (fun kv => kv.1 ++ "=" ++ kv.2)).foldl
    (fun a b => if a = "" then b else a ++ "&" ++ b) ""

/-- A handler echoing the context's `query` field into the body. -/
def echoQueryHandler : Handler :=
  fun c => M.pure { status := 200, body := renderQuery c.query, headers := [] }

/-- C8 counterexample: on a wildcard-resolved dispatch the context's
`query` is the empty mapping, not the mapping parsed from the URL's
query string: a request for `/x?a=b` served by the `*` handler
observes an empty `query`, while the parsed mapping is `a ↦ b`. -/
theorem wildcard_query_empty_counterexample :
    ((XebecServer.make plainOptions).addRoute "GET" "*" echoQueryHandler
        none).handler (reqFor "/x" "?a=b" []) [] =
      (Except.ok { status := 200, body := renderQuery [], headers := [] },
        [Ev.handlerCall]) ∧
    parseQuery "?a=b" = [("a", "b")] ∧
    renderQuery [] ≠ renderQuery [("a", "b")] :=
  ⟨rfl, rfl, by decide⟩

/-- C8 amended: resolution fills `query` with the mapping parsed from
the URL's query string exactly when a concrete route matched; the
wildcard fallback gets an empty `query`.  On the concrete path (route
without local middleware or options) the terminal step hands the
handler the context carrying those resolved `params`/`query`. -/
theorem query_parsed_for_concrete_routes (srv : XebecServer)
    (method pathname search : String) (mr : MatchResult)
    (hfind : srv.findMatchingRoute method pathname search = some mr) :
    (mr.route.isSome = true → mr.query = parseQuery search) ∧
    (mr.route = none → mr.query = []) ∧
    (∀ (clonedReq req : Req) (rt : Route) (t : List Ev),
      srv.findMatchingRoute (toUpperStr req.method) req.pathname req.search = some mr →
      mr.route = some rt → rt.middleware = [] → rt.options = none →
      srv.terminalStep clonedReq req t =
        M.bind (M.emit Ev.handlerCall) (fun _ =>
          mr.handler { clonedReq with params := mr.params, query := mr.query }) t) := by
  refine ⟨?_, ?_, ?_⟩
  · intro hsome
    unfold XebecServer.findMatchingRoute at hfind
    cases hf : findFirst (srv.routesFor method) pathname with
    | some rc =>
        rw [hf] at hfind
        have hmr := Option.some.inj hfind
        rw [← hmr]
    | none =>
        rw [hf] at hfind
        cases hw : lookupAssoc srv.wildcardRoutes method with
        | some h =>
            rw [hw] at hfind
            have hmr := Option.some.inj hfind
            rw [← hmr] at hsome
            simp at hsome
        | none => rw [hw] at hfind; cases hfind
  · intro hnone
    unfold XebecServer.findMatchingRoute at hfind
    cases hf : findFirst (srv.routesFor method) pathname with
    | some rc =>
        rw [hf] at hfind
        have hmr := Option.some.inj hfind
        rw [← hmr] at hnone
        simp at hnone
    | none =>
        rw [hf] at hfind
        cases hw : lookupAssoc srv.wildcardRoutes method with
        | some h =>
            rw [hw] at hfind
            have hmr := Option.some.inj hfind
            rw [← hmr]
        | none => rw [hw] at hfind; cases hfind
  · intro clonedReq req rt t hfind₂ hroute hlm hopts
    unfold XebecServer.terminalStep
    rw [hfind₂]
    simp only [hroute, hlm, List.length_nil, Nat.lt_irrefl, if_false]
    unfold applyRouteOptions
    simp only [hopts]
    rw [M.bind_ok _ (M.pure_apply _ t)]

/-- The match result of the C8 witness request on its concrete route. -/
def mrQueryWitness : MatchResult :=
  { handler := okHandler
    route := some
      { pattern := "/q", toks := [Tok.lit '/', Tok.lit 'q'], paramNames := []
        handler := okHandler, isWildcard := false, middleware := []
        options := none }
    params := [], query := [("a", "b")] }

/-- Witness for C8 amended: a concrete route resolution carries the
parsed query mapping. -/
theorem query_parsed_for_concrete_routes_witness :
    ((XebecServer.make plainOptions).addRoute "GET" "/q" okHandler
        none).findMatchingRoute "GET" "/q" "?a=b" = some mrQueryWitness ∧
    mrQueryWitness.query = parseQuery "?a=b" :=
  ⟨rfl,
    (query_parsed_for_concrete_routes
      ((XebecServer.make plainOptions).addRoute "GET" "/q" okHandler none)
      "GET" "/q" "?a=b" mrQueryWitness rfl).1 rfl⟩

/-- C9 counterexample: the template `/files/*` — not the standalone
wildcard — is registered as a concrete route (the wildcard slot stays
empty), and its compiled matcher does match the multi-segment suffix
`a/b`: `*` was rewritten to `.*`, not escaped as a literal. -/
theorem star_in_template_counterexample :
    ((((XebecServer.make plainOptions).addRoute "GET" "/files/*" okHandler
        none).findMatchingRoute "GET" "/files/a/b" "").isSome = true) ∧
    lookupAssoc ((XebecServer.make plainOptions).addRoute "GET" "/files/*"
        okHandler none).wildcardRoutes "GET" = none ∧
    matchPath (compilePattern "/files/*").1 "/files/a/b" = some [] :=
  ⟨rfl, rfl, rfl⟩

/-- A literal token matching its own character steps the matcher. -/
theorem matchToks_lit_step (c : Char) (ts : List Tok) (cs : List Char) :
    matchToks (Tok.lit c :: ts) (c :: cs) = matchToks ts cs := by
  simp [matchToks]

/-- C9 amended: a `*` occurring inside a longer route template is not
a literal: it compiles to a match-anything `.*` region, so such a
route matches every continuation of the surrounding literals —
including multi-segment suffixes (`/files/*` matches `/files/` ++ `s`
for every string `s`).  Only the exact template `*` populates the
per-method wildcard slot; any other template (whether or not it
contains `*`) is registered as a concrete route and leaves the
wildcard slots untouched. -/
theorem star_in_template_matches_any_suffix :
    (∀ s : String,
      matchPath (compilePattern "/files/*").1 ("/files/" ++ s) = some []) ∧
    (∀ (srv : XebecServer) (m path : String) (h : Handler)
        (cfg : Option RouteConfig), path ≠ "*" →
      (srv.addRoute m path h cfg).wildcardRoutes = srv.wildcardRoutes) := by
  constructor
  · intro s
    show matchToks
      [Tok.lit '/', Tok.lit 'f', Tok.lit 'i', Tok.lit 'l', Tok.lit 'e',
        Tok.lit 's', Tok.lit '/', Tok.star] ("/files/" ++ s).data = some []
    have hd : ("/files/" ++ s).data = ['/', 'f', 'i', 'l', 'e', 's', '/'] ++ s.data := by
      rw [String.data_append]
    rw [hd]
    simp only [List.cons_append, List.nil_append]
    rw [matchToks_lit_step, matchToks_lit_step, matchToks_lit_step,
      matchToks_lit_step, matchToks_lit_step, matchToks_lit_step,
      matchToks_lit_step]
    exact matchToks_star_all s.data
  · intro srv m path h cfg hp
    exact addRoute_notStar_wildcards srv m path h cfg hp

/-- Witness for C9 amended: the concrete multi-segment suffix `a/b`
matches `/files/*`, and registering `/files/*` leaves the wildcard
slots unchanged. -/
theorem star_in_template_matches_any_suffix_witness :
    matchPath (compilePattern "/files/*").1 ("/files/" ++ "a/b") = some [] ∧
    ((XebecServer.make plainOptions).addRoute "GET" "/files/*" okHandler
        none).wildcardRoutes = (XebecServer.make plainOptions).wildcardRoutes :=
  ⟨star_in_template_matches_any_suffix.1 "a/b",
    star_in_template_matches_any_suffix.2 (XebecServer.make plainOptions)
      "GET" "/files/*" okHandler none (by decide)⟩

end Xebec
